import Mathlib

/-!
# kanasa-wg: the peer-mutation handlers of `main.go`

A shallow embedding of `src/main.go`.  The process talks to three things that lie
outside of it, and each is made explicit:

* the external `wg` binary, reached through `exec.Command(...).CombinedOutput()`:
  an arbitrary transition function on an arbitrary host state (`Exec σ`);
* the standard logger: the list of formatted messages, oldest first (the date/time
  stamp that the standard logger puts in front of a message is not modelled);
* the `http.ResponseWriter`: the header map, the status code and the body written.

`json.NewDecoder(r.Body).Decode(&req)` is library code; its result on a body is a
parameter `decode : String → Option PeerAddRequest` (`none` when `err != nil`).
Go strings are modelled as Lean strings.
-/

namespace Kanasa

/-! ## Data structs -/

/-- The request record of `main.go` (`PeerAddRequest`), used by both mutating routes. -/
structure PeerAddRequest where
  ServerKey : String
  PublicKey : String
  IP : String
deriving DecidableEq, Repr

/-- The response record of `main.go` (`ApiResponse`). -/
structure ApiResponse where
  Success : Bool
  Message : String
deriving DecidableEq, Repr

/-! ## Library functions used by the handlers -/

/-- The predicate `unicode.IsSpace`: the Latin-1 spaces and the code points with the
White_Space property. -/
def isSpace (c : Char) : Bool :=
  let n := c.toNat
  n == 0x09 || n == 0x0A || n == 0x0B || n == 0x0C || n == 0x0D || n == 0x20 ||
  n == 0x85 || n == 0xA0 || n == 0x1680 || (0x2000 ≤ n && n ≤ 0x200A) ||
  n == 0x2028 || n == 0x2029 || n == 0x202F || n == 0x205F || n == 0x3000

/-- Drop the leading white space of a character sequence. -/
def trimLeft (cs : List Char) : List Char :=
  cs.dropWhile isSpace

/-- Drop the trailing white space of a character sequence. -/
def trimRight (cs : List Char) : List Char :=
  (cs.reverse.dropWhile isSpace).reverse

/-- The function `strings.TrimSpace`: the slice of `s` with all leading and trailing
white space removed. -/
def TrimSpace (s : String) : String :=
  ⟨trimRight (trimLeft s.data)⟩

/-- Whether `sub` occurs in `s` at some position, on character sequences. -/
def containsChars : List Char → List Char → Bool
  | [], sub => sub.isEmpty
  | c :: s, sub => sub.isPrefixOf (c :: s) || containsChars s sub

/-- The function `strings.Contains`: reports whether `substr` is within `s`. -/
def Contains (s substr : String) : Bool :=
  containsChars s.data substr.data

/-- The table `hex` of `encoding/json`. -/
def hexDigit (n : Nat) : Char :=
  "0123456789abcdef".data.getD n '0'

/-- One character of a JSON string as `encoding/json` writes it with HTML escaping on
(the default of `json.Encoder`): a backslash before the quote and the backslash, the short
escapes for the usual control characters, and the `u` escape for the other control
characters, for `<`, `>` and `&`, and for U+2028 and U+2029. -/
def jsonEscapeChar (c : Char) : List Char :=
  let n := c.toNat
  if n == 0x5C || n == 0x22 then [Char.ofNat 0x5C, c]
  else if n == 0x08 then [Char.ofNat 0x5C, 'b']
  else if n == 0x0C then [Char.ofNat 0x5C, 'f']
  else if n == 0x0A then [Char.ofNat 0x5C, 'n']
  else if n == 0x0D then [Char.ofNat 0x5C, 'r']
  else if n == 0x09 then [Char.ofNat 0x5C, 't']
  else if n < 0x20 || n == 0x3C || n == 0x3E || n == 0x26 then
    [Char.ofNat 0x5C, 'u', '0', '0', hexDigit (n / 16), hexDigit (n % 16)]
  else if n == 0x2028 || n == 0x2029 then
    [Char.ofNat 0x5C, 'u', '2', '0', '2', hexDigit (n % 16)]
  else [c]

/-- A JSON string literal: the escaped characters between double quotes. -/
def jsonString (s : String) : List Char :=
  [Char.ofNat 0x22] ++ s.data.flatMap jsonEscapeChar ++ [Char.ofNat 0x22]

/-- A JSON boolean. -/
def jsonBool (b : Bool) : List Char :=
  if b then "true".data else "false".data

/-- What `json.NewEncoder(w).Encode(resp)` writes for an `ApiResponse`: the object with
the fields `success` and `message` in declaration order, then a newline. -/
def encodeApiResponse (resp : ApiResponse) : String :=
  ⟨[Char.ofNat 0x7B] ++ jsonString "success" ++ [':'] ++ jsonBool resp.Success ++ [','] ++
    jsonString "message" ++ [':'] ++ jsonString resp.Message ++ [Char.ofNat 0x7D, '\n']⟩

/-! ## The response writer -/

/-- The state of an `http.ResponseWriter`: the header map, whether the status line has
been written, the status code, and the body written so far. -/
structure ResponseWriter where
  header : List (String × String)
  wroteHeader : Bool
  status : Nat
  body : String
deriving DecidableEq, Repr

/-- A fresh response writer, as the server hands it to a handler. -/
def ResponseWriter.fresh : ResponseWriter :=
  { header := [], wroteHeader := false, status := 0, body := "" }

/-- The call `w.Header().Del(k)`; without effect once the status line is written. -/
def ResponseWriter.delHeader (w : ResponseWriter) (k : String) : ResponseWriter :=
  if w.wroteHeader then w else { w with header := w.header.filter (fun kv => kv.1 != k) }

/-- The call `w.Header().Set(k, v)`; without effect once the status line is written. -/
def ResponseWriter.setHeader (w : ResponseWriter) (k v : String) : ResponseWriter :=
  if w.wroteHeader then w
  else { w with header := w.header.filter (fun kv => kv.1 != k) ++ [(k, v)] }

/-- The call `w.WriteHeader(code)`: the first call fixes the status code. -/
def ResponseWriter.WriteHeader (w : ResponseWriter) (code : Nat) : ResponseWriter :=
  if w.wroteHeader then w else { w with wroteHeader := true, status := code }

/-- The call `w.Write(data)`: writes the status line with code 200 if none was written
yet, then appends to the body. -/
def ResponseWriter.Write (w : ResponseWriter) (data : String) : ResponseWriter :=
  let w1 := w.WriteHeader 200
  { w1 with body := w1.body ++ data }

/-- The function `http.Error`: a plain-text reply with the given status code, whose body
is the message followed by a newline. -/
def httpError (w : ResponseWriter) (error : String) (code : Nat) : ResponseWriter :=
  let w1 := w.delHeader "Content-Length"
  let w2 := w1.setHeader "Content-Type" "text/plain; charset=utf-8"
  let w3 := w2.setHeader "X-Content-Type-Options" "nosniff"
  let w4 := w3.WriteHeader code
  w4.Write (error ++ "\n")

/-! ## The process and the outside world -/

/-- What `CombinedOutput()` returns: the combined standard output and standard error of
the command, and whether `err != nil`. -/
structure CmdResult where
  out : String
  failed : Bool
deriving DecidableEq, Repr

/-- The external command mechanism: running an argument vector on a host in state `σ`
gives a result and a new host state.  Nothing is assumed about it. -/
abbrev Exec (σ : Type) := List String → σ → CmdResult × σ

/-- The side of the process that a handler can change: the host it runs commands on, the
lines it logged, and the commands it ran with their results (oldest first). -/
structure Proc (σ : Type) where
  host : σ
  log : List String
  calls : List (List String × CmdResult)

/-- A process that has neither logged nor run anything yet. -/
def Proc.start {σ : Type} (host : σ) : Proc σ :=
  { host := host, log := [], calls := [] }

/-- The call `log.Printf`: one more line in the log. -/
def logPrintf {σ : Type} (p : Proc σ) (line : String) : Proc σ :=
  { p with log := p.log ++ [line] }

/-- The call `exec.Command(argv...).CombinedOutput()`: runs the command on the host and
records it. -/
def CombinedOutput {σ : Type} (run : Exec σ) (argv : List String) (p : Proc σ) :
    CmdResult × Proc σ :=
  let r := run argv p.host
  (r.1, { p with host := r.2, calls := p.calls ++ [(argv, r.1)] })

/-- The argument vector of the `wg set` call of `peerAddHandler`. -/
def setArgv (req : PeerAddRequest) : List String :=
  ["wg", "set", "wg0", "peer", req.PublicKey, "allowed-ips", req.IP]

/-- The argument vector of the `wg show` call of `peerAddHandler`. -/
def showArgv : List String :=
  ["wg", "show", "wg0", "allowed-ips"]

/-- The argument vector of the `wg set ... remove` call of `peerRemoveHandler`. -/
def removeArgv (req : PeerAddRequest) : List String :=
  ["wg", "set", "wg0", "peer", TrimSpace req.PublicKey, "remove"]

/-! ## Handlers -/

/-- An incoming request: the URL path and the body. -/
structure Request where
  path : String
  body : String
deriving DecidableEq, Repr

/-- The handler `healthHandler`. -/
def healthHandler {σ : Type} (p : Proc σ) (w : ResponseWriter) : Proc σ × ResponseWriter :=
  (p, (w.WriteHeader 200).Write "OK")

/-- The handler `peerAddHandler`: decode, compare the server key, `wg set`, `wg show`,
look for the public key in the listing, answer. -/
def peerAddHandler {σ : Type} (decode : String → Option PeerAddRequest) (run : Exec σ)
    (localServerKey : String) (r : Request) (p : Proc σ) (w : ResponseWriter) :
    Proc σ × ResponseWriter :=
  match decode r.body with
  | none => (p, httpError w "invalid json" 400)
  | some req =>
    if req.ServerKey != localServerKey then
      (p, httpError w "execution not allowed for this server" 403)
    else
      let p1 := logPrintf p ("Adding WG peer: " ++ req.PublicKey ++ " " ++ req.IP)
      let c1 := CombinedOutput run (setArgv req) p1
      if c1.1.failed then
        (logPrintf c1.2 ("wg set failed: " ++ c1.1.out), httpError w "wg set failed" 500)
      else
        let c2 := CombinedOutput run showArgv c1.2
        if c2.1.failed then
          (logPrintf c2.2 ("wg verify failed: " ++ c2.1.out),
            httpError w "wg verify failed" 500)
        else if !Contains c2.1.out req.PublicKey then
          (logPrintf c2.2 "peer not found after wg set",
            httpError w "peer verification failed" 500)
        else
          let resp : ApiResponse := { Success := true, Message := "peer added successfully" }
          (c2.2, (w.setHeader "Content-Type" "application/json").Write (encodeApiResponse resp))

/-- The handler `peerRemoveHandler`: decode, compare the server key, `wg set ... remove`
on the trimmed public key, answer. -/
def peerRemoveHandler {σ : Type} (decode : String → Option PeerAddRequest) (run : Exec σ)
    (localServerKey : String) (r : Request) (p : Proc σ) (w : ResponseWriter) :
    Proc σ × ResponseWriter :=
  match decode r.body with
  | none => (p, httpError w "invalid json" 400)
  | some req =>
    if req.ServerKey != localServerKey then
      (p, httpError w "execution not allowed for this server" 403)
    else
      let p1 := logPrintf p ("Removing WG peer: " ++ req.PublicKey)
      let c1 := CombinedOutput run (removeArgv req) p1
      if c1.1.failed then
        (logPrintf c1.2 ("wg remove failed: " ++ c1.1.out),
          httpError w "wg remove failed" 500)
      else
        let resp : ApiResponse := { Success := true, Message := "peer removed successfully" }
        (c1.2, (w.setHeader "Content-Type" "application/json").Write (encodeApiResponse resp))

/-! ## Main -/

/-- The three handlers that `main` registers. -/
inductive Handler where
  | health
  | peerAdd
  | peerRemove
deriving DecidableEq, Repr

/-- The process after the set-up part of `main`: the global `localServerKey`, the routes
registered on the default mux, the lines logged, and the exit code if `log.Fatal` ended
the process. -/
structure Server where
  localServerKey : String
  routes : List (String × Handler)
  log : List String
  exited : Option Nat
deriving DecidableEq, Repr

/-- The call `os.Getenv`: the value of the variable, empty when it is not set. -/
def Getenv (env : String → Option String) (k : String) : String :=
  (env k).getD ""

/-- The function `main` up to the call of `http.ListenAndServe`: read the key, stop with
`log.Fatal` when it is empty, otherwise register the routes and log the start-up line. -/
def main (env : String → Option String) : Server :=
  let localServerKey := Getenv env "KANASA_SERVER_KEY"
  if localServerKey == "" then
    { localServerKey := localServerKey, routes := [],
      log := ["KANASA_SERVER_KEY is not set"], exited := some 1 }
  else
    { localServerKey := localServerKey,
      routes := [("/health", Handler.health), ("/peer/add", Handler.peerAdd),
        ("/peer/remove", Handler.peerRemove)],
      log := ["Kanasa WG service for server_key=" ++ localServerKey ++
        " listening on 127.0.0.1:9000"],
      exited := none }

/-- The handler function behind a registered route, run on one request. -/
def dispatch {σ : Type} (h : Handler) (decode : String → Option PeerAddRequest) (run : Exec σ)
    (localServerKey : String) (r : Request) (p : Proc σ) (w : ResponseWriter) :
    Proc σ × ResponseWriter :=
  match h with
  | Handler.health => healthHandler p w
  | Handler.peerAdd => peerAddHandler decode run localServerKey r p w
  | Handler.peerRemove => peerRemoveHandler decode run localServerKey r p w

/-- One request handled by the server that `main` set up: nothing is served once the
process has exited; a path without a registered handler gets the mux's 404 reply;
otherwise the registered handler runs with the global `localServerKey` on a fresh
response writer. -/
def serve {σ : Type} (decode : String → Option PeerAddRequest) (run : Exec σ) (s : Server)
    (r : Request) (p : Proc σ) : Option (Proc σ × ResponseWriter) :=
  match s.exited with
  | some _ => none
  | none =>
    match s.routes.lookup r.path with
    | none => some (p, httpError ResponseWriter.fresh "404 page not found" 404)
    | some h => some (dispatch h decode run s.localServerKey r p ResponseWriter.fresh)

/-! ## Vocabulary of the properties -/

/-- The steps of a mutation at which the external command can make it fail. -/
inductive Step where
  | set
  | list
  | missing
  | remove
deriving DecidableEq, Repr

/-- The step at which the external command makes an authorized request to a handler fail
on a given host, read off the command's behaviour alone: the set call errs; or the list
call after it errs; or the listing lacks the public key; or the remove call errs. -/
def failureStep {σ : Type} (h : Handler) (run : Exec σ) (req : PeerAddRequest) (host : σ) :
    Option Step :=
  match h with
  | Handler.health => none
  | Handler.peerAdd =>
    let s := run (setArgv req) host
    if s.1.failed then some Step.set
    else
      let l := run showArgv s.2
      if l.1.failed then some Step.list
      else if Contains l.1.out req.PublicKey then none
      else some Step.missing
  | Handler.peerRemove =>
    if (run (removeArgv req) host).1.failed then some Step.remove else none

/-- The message that the handlers pass to `http.Error` for a failure at each step. -/
def categoryMessage : Step → String
  | Step.set => "wg set failed"
  | Step.list => "wg verify failed"
  | Step.missing => "peer verification failed"
  | Step.remove => "wg remove failed"

/-- A reply reports success: it carries status 200, or its body is an encoded
`ApiResponse` with `success` true. -/
def ReportsSuccess (w : ResponseWriter) : Prop :=
  w.status = 200 ∨ ∃ msg, w.body = encodeApiResponse { Success := true, Message := msg }

/-- A body has the shape of an encoded `ApiResponse`. -/
def IsApiResponseBody (body : String) : Prop :=
  ∃ resp : ApiResponse, body = encodeApiResponse resp

/-- A reply written as JSON: status 200, content type `application/json`, and an encoded
`ApiResponse` with `success` true as body. -/
def IsJsonSuccess (w : ResponseWriter) : Prop :=
  w.status = 200 ∧ w.header = [("Content-Type", "application/json")] ∧
    ∃ msg, w.body = encodeApiResponse { Success := true, Message := msg }

/-- A reply written by `http.Error`: one of the status codes 400, 403 and 500, content
type `text/plain`, and the bare message followed by a newline as body. -/
def IsPlainError (w : ResponseWriter) : Prop :=
  (w.status = 400 ∨ w.status = 403 ∨ w.status = 500) ∧
    w.header = [("Content-Type", "text/plain; charset=utf-8"),
      ("X-Content-Type-Options", "nosniff")] ∧
    ∃ msg ∈ ["invalid json", "execution not allowed for this server", "wg set failed",
      "wg verify failed", "peer verification failed", "wg remove failed"],
      w.body = msg ++ "\n"

/-- The log lines that a handler may write for a decoded request, given the results of
the commands it ran: fixed text around the request's public key and address, or around
the output of one of those commands. -/
def IsHandlerLine (req : PeerAddRequest) (results : List CmdResult) (line : String) : Prop :=
  line = "Adding WG peer: " ++ req.PublicKey ++ " " ++ req.IP ∨
  line = "Removing WG peer: " ++ req.PublicKey ∨
  line = "peer not found after wg set" ∨
  ∃ c ∈ results, line = "wg set failed: " ++ c.out ∨ line = "wg verify failed: " ++ c.out ∨
    line = "wg remove failed: " ++ c.out

/-! ## Stand-ins for the external command, for concrete runs -/

/-- A scripted command: it answers the calls with the prepared results, in order, and
fails once they are used up. -/
def scripted : Exec (List CmdResult) := fun _ s =>
  match s with
  | [] => ({ out := "", failed := true }, [])
  | c :: cs => (c, cs)

/-- A command over a peer table (public key, allowed address) that creates or replaces
on `set`, lists on `show`, and reports an error when asked to remove an absent peer. -/
def strictWg : Exec (List (String × String)) := fun argv t =>
  match argv with
  | ["wg", "set", "wg0", "peer", k, "allowed-ips", ip] =>
    ({ out := "", failed := false }, t.filter (fun kv => kv.1 != k) ++ [(k, ip)])
  | ["wg", "set", "wg0", "peer", k, "remove"] =>
    if t.any (fun kv => kv.1 == k) then
      ({ out := "", failed := false }, t.filter (fun kv => kv.1 != k))
    else ({ out := "Unable to modify interface: No such peer", failed := true }, t)
  | ["wg", "show", "wg0", "allowed-ips"] =>
    ({ out := String.join (t.map (fun kv => kv.1 ++ "\t" ++ kv.2 ++ "\n")), failed := false }, t)
  | _ => ({ out := "Invalid argument", failed := true }, t)

/-- The add request of the specification's scenarios. -/
def scenarioAdd : PeerAddRequest :=
  { ServerKey := "S", PublicKey := "PUBKEY1", IP := "10.0.0.5/32" }

/-- The remove request of the specification's scenarios, with blanks around the key. -/
def scenarioRemove : PeerAddRequest :=
  { ServerKey := "S", PublicKey := "  PUBKEY1  ", IP := "" }

/-- A decoder that reads every body as one given request. -/
def decodeAs (req : PeerAddRequest) : String → Option PeerAddRequest :=
  fun _ => some req

/-- A decoder that rejects every body. -/
def decodeFails : String → Option PeerAddRequest :=
  fun _ => none

/-- An environment in which only `KANASA_SERVER_KEY` is set. -/
def envWithKey (key : String) : String → Option String :=
  fun k => if k = "KANASA_SERVER_KEY" then some key else none


/-! ## Facts about the library functions -/

theorem containsChars_iff (s sub : List Char) : containsChars s sub = true ↔ sub <:+: s := by
  induction s with
  | nil => simp [containsChars, List.isEmpty_iff]
  | cons c s ih => simp [containsChars, ih, List.infix_cons_iff]

theorem Contains_iff (s substr : String) :
    Contains s substr = true ↔ substr.data <:+: s.data :=
  containsChars_iff s.data substr.data

theorem Contains_append (a k b : String) : Contains (a ++ k ++ b) k = true := by
  rw [Contains_iff]
  simp only [String.data_append]
  exact List.infix_append _ _ _

theorem trimRight_eq (cs : List Char) : trimRight cs = cs.rdropWhile isSpace := rfl

theorem trim_split (cs : List Char) :
    cs = cs.takeWhile isSpace ++ trimRight (trimLeft cs) ++
      (trimLeft cs).rtakeWhile isSpace := by
  have h : trimRight (trimLeft cs) ++ (trimLeft cs).rtakeWhile isSpace = trimLeft cs := by
    unfold trimRight List.rtakeWhile
    rw [← List.reverse_append, List.takeWhile_append_dropWhile, List.reverse_reverse]
  rw [List.append_assoc, h]
  exact (List.takeWhile_append_dropWhile isSpace cs).symm

theorem trim_head (cs : List Char) (c : Char)
    (h : (trimRight (trimLeft cs)).head? = some c) : isSpace c = false := by
  have hp : trimRight (trimLeft cs) <+: trimLeft cs := List.rdropWhile_prefix _ _
  obtain ⟨t, ht⟩ := hp
  have h1 := List.head?_dropWhile_not isSpace cs
  cases hq : trimRight (trimLeft cs) with
  | nil => simp [hq] at h
  | cons x xs =>
    rw [hq] at h ht
    simp at h
    subst h
    have : (List.dropWhile isSpace cs).head? = some x := by
      show (trimLeft cs).head? = some x
      rw [← ht]; rfl
    rw [this] at h1
    exact h1

theorem trim_last (cs : List Char) (c : Char)
    (h : (trimRight (trimLeft cs)).getLast? = some c) : isSpace c = false := by
  have h1 := List.head?_dropWhile_not isSpace (trimLeft cs).reverse
  unfold trimRight at h
  rw [List.getLast?_reverse] at h
  rw [h] at h1
  exact h1

theorem trim_fixed_iff (cs : List Char) :
    trimRight (trimLeft cs) = cs ↔
      (∀ c, cs.head? = some c → isSpace c = false) ∧
      (∀ c, cs.getLast? = some c → isSpace c = false) := by
  constructor
  · intro h
    exact ⟨fun c hc => trim_head cs c (by rw [h]; exact hc),
      fun c hc => trim_last cs c (by rw [h]; exact hc)⟩
  · rintro ⟨hh, hl⟩
    have h1 : trimLeft cs = cs := by
      cases cs with
      | nil => rfl
      | cons x xs =>
        have := hh x rfl
        simp [trimLeft, List.dropWhile_cons, this]
    rw [h1, trimRight_eq, List.rdropWhile_eq_self_iff]
    intro hne
    have := hl (cs.getLast hne) (List.getLast?_eq_getLast _ hne)
    simp [this]

theorem TrimSpace_fixed_iff (s : String) :
    TrimSpace s = s ↔
      (∀ c, s.data.head? = some c → isSpace c = false) ∧
      (∀ c, s.data.getLast? = some c → isSpace c = false) := by
  rw [← trim_fixed_iff]
  constructor
  · intro h
    exact congrArg String.data h
  · intro h
    exact String.ext h

theorem encodeApiResponse_head (resp : ApiResponse) :
    (encodeApiResponse resp).data.head? = some (Char.ofNat 0x7B) := by
  simp [encodeApiResponse]

theorem encode_added :
    encodeApiResponse { Success := true, Message := "peer added successfully" } =
      "\x7b\"success\":true,\"message\":\"peer added successfully\"\x7d\n" := by
  decide

theorem encode_removed :
    encodeApiResponse { Success := true, Message := "peer removed successfully" } =
      "\x7b\"success\":true,\"message\":\"peer removed successfully\"\x7d\n" := by
  decide

/-- A body that does not open with a brace is not an encoded `ApiResponse`. -/
theorem not_apiResponseBody (body : String)
    (h : body.data.head? ≠ some (Char.ofNat 0x7B)) : ¬ IsApiResponseBody body := by
  rintro ⟨resp, hr⟩
  exact h (by rw [hr]; exact encodeApiResponse_head resp)

/-! ## Facts about the response writer -/

theorem httpError_fresh (msg : String) (code : Nat) :
    httpError ResponseWriter.fresh msg code =
      { header := [("Content-Type", "text/plain; charset=utf-8"),
          ("X-Content-Type-Options", "nosniff")],
        wroteHeader := true, status := code, body := msg ++ "\n" } := by
  simp [httpError, ResponseWriter.fresh, ResponseWriter.delHeader, ResponseWriter.setHeader,
    ResponseWriter.WriteHeader, ResponseWriter.Write]

theorem jsonReply_fresh (data : String) :
    (ResponseWriter.fresh.setHeader "Content-Type" "application/json").Write data =
      { header := [("Content-Type", "application/json")],
        wroteHeader := true, status := 200, body := data } := by
  simp [ResponseWriter.fresh, ResponseWriter.setHeader,
    ResponseWriter.WriteHeader, ResponseWriter.Write]

/-- A reply of `http.Error` with a code other than 200 and a message that does not open
with a brace does not report success. -/
theorem httpError_not_success (msg : String) (code : Nat) (hc : code ≠ 200)
    (hm : (msg ++ "\n").data.head? ≠ some (Char.ofNat 0x7B)) :
    ¬ ReportsSuccess (httpError ResponseWriter.fresh msg code) := by
  rw [httpError_fresh]
  rintro (h | ⟨m, h⟩)
  · exact hc h
  · exact not_apiResponseBody _ hm ⟨_, h⟩

/-! ## The handlers, path by path -/

section paths

variable {σ : Type} (decode : String → Option PeerAddRequest) (run : Exec σ) (key : String)
  (r : Request) (req : PeerAddRequest) (p : Proc σ)

theorem add_undecoded (hdec : decode r.body = none) :
    peerAddHandler decode run key r p ResponseWriter.fresh =
      (p, httpError ResponseWriter.fresh "invalid json" 400) := by
  simp [peerAddHandler, hdec]

theorem remove_undecoded (hdec : decode r.body = none) :
    peerRemoveHandler decode run key r p ResponseWriter.fresh =
      (p, httpError ResponseWriter.fresh "invalid json" 400) := by
  simp [peerRemoveHandler, hdec]

theorem add_wrong_key (hdec : decode r.body = some req) (hkey : req.ServerKey ≠ key) :
    peerAddHandler decode run key r p ResponseWriter.fresh =
      (p, httpError ResponseWriter.fresh "execution not allowed for this server" 403) := by
  simp [peerAddHandler, hdec, hkey]

theorem remove_wrong_key (hdec : decode r.body = some req) (hkey : req.ServerKey ≠ key) :
    peerRemoveHandler decode run key r p ResponseWriter.fresh =
      (p, httpError ResponseWriter.fresh "execution not allowed for this server" 403) := by
  simp [peerRemoveHandler, hdec, hkey]

theorem add_set_failed (hdec : decode r.body = some req) (hkey : req.ServerKey = key)
    (hset : (run (setArgv req) p.host).1.failed = true) :
    peerAddHandler decode run key r p ResponseWriter.fresh =
      ({ host := (run (setArgv req) p.host).2,
         log := p.log ++ ["Adding WG peer: " ++ req.PublicKey ++ " " ++ req.IP,
           "wg set failed: " ++ (run (setArgv req) p.host).1.out],
         calls := p.calls ++ [(setArgv req, (run (setArgv req) p.host).1)] },
        httpError ResponseWriter.fresh "wg set failed" 500) := by
  simp [peerAddHandler, hdec, hkey, CombinedOutput, logPrintf, hset]

theorem add_list_failed (hdec : decode r.body = some req) (hkey : req.ServerKey = key)
    (hset : (run (setArgv req) p.host).1.failed = false)
    (hlist : (run showArgv (run (setArgv req) p.host).2).1.failed = true) :
    peerAddHandler decode run key r p ResponseWriter.fresh =
      ({ host := (run showArgv (run (setArgv req) p.host).2).2,
         log := p.log ++ ["Adding WG peer: " ++ req.PublicKey ++ " " ++ req.IP,
           "wg verify failed: " ++ (run showArgv (run (setArgv req) p.host).2).1.out],
         calls := p.calls ++ [(setArgv req, (run (setArgv req) p.host).1),
           (showArgv, (run showArgv (run (setArgv req) p.host).2).1)] },
        httpError ResponseWriter.fresh "wg verify failed" 500) := by
  simp [peerAddHandler, hdec, hkey, CombinedOutput, logPrintf, hset, hlist]

theorem add_key_missing (hdec : decode r.body = some req) (hkey : req.ServerKey = key)
    (hset : (run (setArgv req) p.host).1.failed = false)
    (hlist : (run showArgv (run (setArgv req) p.host).2).1.failed = false)
    (hmiss : Contains (run showArgv (run (setArgv req) p.host).2).1.out req.PublicKey = false) :
    peerAddHandler decode run key r p ResponseWriter.fresh =
      ({ host := (run showArgv (run (setArgv req) p.host).2).2,
         log := p.log ++ ["Adding WG peer: " ++ req.PublicKey ++ " " ++ req.IP,
           "peer not found after wg set"],
         calls := p.calls ++ [(setArgv req, (run (setArgv req) p.host).1),
           (showArgv, (run showArgv (run (setArgv req) p.host).2).1)] },
        httpError ResponseWriter.fresh "peer verification failed" 500) := by
  simp [peerAddHandler, hdec, hkey, CombinedOutput, logPrintf, hset, hlist, hmiss]

theorem add_confirmed (hdec : decode r.body = some req) (hkey : req.ServerKey = key)
    (hset : (run (setArgv req) p.host).1.failed = false)
    (hlist : (run showArgv (run (setArgv req) p.host).2).1.failed = false)
    (hfound : Contains (run showArgv (run (setArgv req) p.host).2).1.out req.PublicKey = true) :
    peerAddHandler decode run key r p ResponseWriter.fresh =
      ({ host := (run showArgv (run (setArgv req) p.host).2).2,
         log := p.log ++ ["Adding WG peer: " ++ req.PublicKey ++ " " ++ req.IP],
         calls := p.calls ++ [(setArgv req, (run (setArgv req) p.host).1),
           (showArgv, (run showArgv (run (setArgv req) p.host).2).1)] },
        (ResponseWriter.fresh.setHeader "Content-Type" "application/json").Write
          (encodeApiResponse { Success := true, Message := "peer added successfully" })) := by
  simp [peerAddHandler, hdec, hkey, CombinedOutput, logPrintf, hset, hlist, hfound]

theorem remove_failed (hdec : decode r.body = some req) (hkey : req.ServerKey = key)
    (hrem : (run (removeArgv req) p.host).1.failed = true) :
    peerRemoveHandler decode run key r p ResponseWriter.fresh =
      ({ host := (run (removeArgv req) p.host).2,
         log := p.log ++ ["Removing WG peer: " ++ req.PublicKey,
           "wg remove failed: " ++ (run (removeArgv req) p.host).1.out],
         calls := p.calls ++ [(removeArgv req, (run (removeArgv req) p.host).1)] },
        httpError ResponseWriter.fresh "wg remove failed" 500) := by
  simp [peerRemoveHandler, hdec, hkey, CombinedOutput, logPrintf, hrem]

theorem remove_done (hdec : decode r.body = some req) (hkey : req.ServerKey = key)
    (hrem : (run (removeArgv req) p.host).1.failed = false) :
    peerRemoveHandler decode run key r p ResponseWriter.fresh =
      ({ host := (run (removeArgv req) p.host).2,
         log := p.log ++ ["Removing WG peer: " ++ req.PublicKey],
         calls := p.calls ++ [(removeArgv req, (run (removeArgv req) p.host).1)] },
        (ResponseWriter.fresh.setHeader "Content-Type" "application/json").Write
          (encodeApiResponse { Success := true, Message := "peer removed successfully" })) := by
  simp [peerRemoveHandler, hdec, hkey, CombinedOutput, logPrintf, hrem]

end paths


/-! ## Failures, replies and log lines -/

theorem encodeApiResponse_flag (resp : ApiResponse) :
    (encodeApiResponse resp).data.get? 11 = some (if resp.Success then 't' else 'f') := by
  cases resp with
  | mk s m => cases s <;> rfl

theorem encodeApiResponse_success (resp : ApiResponse) (msg : String)
    (h : encodeApiResponse { Success := true, Message := msg } = encodeApiResponse resp) :
    resp.Success = true := by
  have h1 := encodeApiResponse_flag resp
  rw [← h, encodeApiResponse_flag] at h1
  cases hs : resp.Success with
  | true => rfl
  | false =>
    rw [hs] at h1
    simp at h1

/-- An authorized request that the external command makes fail at a step is answered by
`http.Error` with the message of that step and status 500. -/
theorem failure_reply {σ : Type} (h : Handler) (decode : String → Option PeerAddRequest)
    (run : Exec σ) (key : String) (r : Request) (req : PeerAddRequest) (p : Proc σ)
    (step : Step) (hdec : decode r.body = some req) (hkey : req.ServerKey = key)
    (hfail : failureStep h run req p.host = some step) :
    (dispatch h decode run key r p ResponseWriter.fresh).2 =
      httpError ResponseWriter.fresh (categoryMessage step) 500 := by
  cases h with
  | health => simp [failureStep] at hfail
  | peerAdd =>
    simp only [dispatch]
    cases hset : (run (setArgv req) p.host).1.failed with
    | true =>
      simp [failureStep, hset] at hfail
      subst hfail
      rw [add_set_failed decode run key r req p hdec hkey hset]
      rfl
    | false =>
      cases hlist : (run showArgv (run (setArgv req) p.host).2).1.failed with
      | true =>
        simp [failureStep, hset, hlist] at hfail
        subst hfail
        rw [add_list_failed decode run key r req p hdec hkey hset hlist]
        rfl
      | false =>
        cases hc : Contains (run showArgv (run (setArgv req) p.host).2).1.out req.PublicKey with
        | true => simp [failureStep, hset, hlist, hc] at hfail
        | false =>
          simp [failureStep, hset, hlist, hc] at hfail
          subst hfail
          rw [add_key_missing decode run key r req p hdec hkey hset hlist hc]
          rfl
  | peerRemove =>
    simp only [dispatch]
    cases hrem : (run (removeArgv req) p.host).1.failed with
    | true =>
      simp [failureStep, hrem] at hfail
      subst hfail
      rw [remove_failed decode run key r req p hdec hkey hrem]
      rfl
    | false => simp [failureStep, hrem] at hfail

/-- The reply of either mutating handler is the JSON success reply or a plain-text
`http.Error` reply. -/
theorem add_reply_shape {σ : Type} (decode : String → Option PeerAddRequest) (run : Exec σ)
    (key : String) (r : Request) (p : Proc σ) :
    IsJsonSuccess (peerAddHandler decode run key r p ResponseWriter.fresh).2 ∨
      IsPlainError (peerAddHandler decode run key r p ResponseWriter.fresh).2 := by
  cases hdec : decode r.body with
  | none =>
    rw [add_undecoded decode run key r p hdec, httpError_fresh]
    exact Or.inr ⟨Or.inl rfl, rfl, _, by simp, rfl⟩
  | some req =>
    by_cases hkey : req.ServerKey = key
    · cases hset : (run (setArgv req) p.host).1.failed with
      | true =>
        rw [add_set_failed decode run key r req p hdec hkey hset, httpError_fresh]
        exact Or.inr ⟨Or.inr (Or.inr rfl), rfl, _, by simp, rfl⟩
      | false =>
        cases hlist : (run showArgv (run (setArgv req) p.host).2).1.failed with
        | true =>
          rw [add_list_failed decode run key r req p hdec hkey hset hlist, httpError_fresh]
          exact Or.inr ⟨Or.inr (Or.inr rfl), rfl, _, by simp, rfl⟩
        | false =>
          cases hc : Contains (run showArgv (run (setArgv req) p.host).2).1.out req.PublicKey with
          | false =>
            rw [add_key_missing decode run key r req p hdec hkey hset hlist hc, httpError_fresh]
            exact Or.inr ⟨Or.inr (Or.inr rfl), rfl, _, by simp, rfl⟩
          | true =>
            rw [add_confirmed decode run key r req p hdec hkey hset hlist hc, jsonReply_fresh]
            exact Or.inl ⟨rfl, rfl, _, rfl⟩
    · rw [add_wrong_key decode run key r req p hdec hkey, httpError_fresh]
      exact Or.inr ⟨Or.inr (Or.inl rfl), rfl, _, by simp, rfl⟩

theorem remove_reply_shape {σ : Type} (decode : String → Option PeerAddRequest)
    (run : Exec σ) (key : String) (r : Request) (p : Proc σ) :
    IsJsonSuccess (peerRemoveHandler decode run key r p ResponseWriter.fresh).2 ∨
      IsPlainError (peerRemoveHandler decode run key r p ResponseWriter.fresh).2 := by
  cases hdec : decode r.body with
  | none =>
    rw [remove_undecoded decode run key r p hdec, httpError_fresh]
    exact Or.inr ⟨Or.inl rfl, rfl, _, by simp, rfl⟩
  | some req =>
    by_cases hkey : req.ServerKey = key
    · cases hrem : (run (removeArgv req) p.host).1.failed with
      | true =>
        rw [remove_failed decode run key r req p hdec hkey hrem, httpError_fresh]
        exact Or.inr ⟨Or.inr (Or.inr rfl), rfl, _, by simp, rfl⟩
      | false =>
        rw [remove_done decode run key r req p hdec hkey hrem, jsonReply_fresh]
        exact Or.inl ⟨rfl, rfl, _, rfl⟩
    · rw [remove_wrong_key decode run key r req p hdec hkey, httpError_fresh]
      exact Or.inr ⟨Or.inr (Or.inl rfl), rfl, _, by simp, rfl⟩

/-- A plain-text error reply is not an encoded `ApiResponse`. -/
theorem plainError_not_apiResponse (w : ResponseWriter) (h : IsPlainError w) :
    ¬ IsApiResponseBody w.body := by
  obtain ⟨_, _, msg, hmem, hbody⟩ := h
  rw [hbody]
  apply not_apiResponseBody
  simp only [List.mem_cons, List.mem_singleton, List.not_mem_nil, or_false] at hmem
  rcases hmem with h | h | h | h | h | h <;> subst h <;> decide

/-- A JSON success reply never carries `success` false. -/
theorem jsonSuccess_flag (w : ResponseWriter) (h : IsJsonSuccess w) (resp : ApiResponse)
    (hr : w.body = encodeApiResponse resp) : resp.Success = true := by
  obtain ⟨_, _, msg, hbody⟩ := h
  exact encodeApiResponse_success resp msg (hbody ▸ hr)


/-- What a handler adds to the log and to the record of commands: lines are added only for
a decoded request whose server key is the secret, and each is fixed text around the
request's public key and address or around the output of a command just run. -/
theorem handler_log_lines {σ : Type} (h : Handler) (decode : String → Option PeerAddRequest)
    (run : Exec σ) (key : String) (r : Request) (p : Proc σ) :
    ∃ added newCalls,
      (dispatch h decode run key r p ResponseWriter.fresh).1.log = p.log ++ added ∧
      (dispatch h decode run key r p ResponseWriter.fresh).1.calls = p.calls ++ newCalls ∧
      ∀ line ∈ added, ∃ req, decode r.body = some req ∧ req.ServerKey = key ∧
        IsHandlerLine req (newCalls.map Prod.snd) line := by
  cases h with
  | health => exact ⟨[], [], by simp [dispatch, healthHandler], by simp [dispatch, healthHandler],
      by simp⟩
  | peerAdd =>
    simp only [dispatch]
    cases hdec : decode r.body with
    | none =>
      rw [add_undecoded decode run key r p hdec]
      exact ⟨[], [], by simp, by simp, by simp⟩
    | some req =>
      by_cases hkey : req.ServerKey = key
      · cases hset : (run (setArgv req) p.host).1.failed with
        | true =>
          rw [add_set_failed decode run key r req p hdec hkey hset]
          refine ⟨_, _, rfl, rfl, ?_⟩
          intro line hl
          refine ⟨req, rfl, hkey, ?_⟩
          simp only [List.mem_cons, List.mem_singleton, List.not_mem_nil, or_false] at hl
          rcases hl with hl | hl
          · exact Or.inl hl
          · exact Or.inr (Or.inr (Or.inr ⟨_, by simp, Or.inl hl⟩))
        | false =>
          cases hlist : (run showArgv (run (setArgv req) p.host).2).1.failed with
          | true =>
            rw [add_list_failed decode run key r req p hdec hkey hset hlist]
            refine ⟨_, _, rfl, rfl, ?_⟩
            intro line hl
            refine ⟨req, rfl, hkey, ?_⟩
            simp only [List.mem_cons, List.mem_singleton, List.not_mem_nil, or_false] at hl
            rcases hl with hl | hl
            · exact Or.inl hl
            · exact Or.inr (Or.inr (Or.inr ⟨(run showArgv (run (setArgv req) p.host).2).1,
                by simp, Or.inr (Or.inl hl)⟩))
          | false =>
            cases hc : Contains (run showArgv (run (setArgv req) p.host).2).1.out
                req.PublicKey with
            | false =>
              rw [add_key_missing decode run key r req p hdec hkey hset hlist hc]
              refine ⟨_, _, rfl, rfl, ?_⟩
              intro line hl
              refine ⟨req, rfl, hkey, ?_⟩
              simp only [List.mem_cons, List.mem_singleton, List.not_mem_nil, or_false] at hl
              rcases hl with hl | hl
              · exact Or.inl hl
              · exact Or.inr (Or.inr (Or.inl hl))
            | true =>
              rw [add_confirmed decode run key r req p hdec hkey hset hlist hc]
              refine ⟨_, _, rfl, rfl, ?_⟩
              intro line hl
              refine ⟨req, rfl, hkey, ?_⟩
              simp only [List.mem_singleton] at hl
              exact Or.inl hl
      · rw [add_wrong_key decode run key r req p hdec hkey]
        exact ⟨[], [], by simp, by simp, by simp⟩
  | peerRemove =>
    simp only [dispatch]
    cases hdec : decode r.body with
    | none =>
      rw [remove_undecoded decode run key r p hdec]
      exact ⟨[], [], by simp, by simp, by simp⟩
    | some req =>
      by_cases hkey : req.ServerKey = key
      · cases hrem : (run (removeArgv req) p.host).1.failed with
        | true =>
          rw [remove_failed decode run key r req p hdec hkey hrem]
          refine ⟨_, _, rfl, rfl, ?_⟩
          intro line hl
          refine ⟨req, rfl, hkey, ?_⟩
          simp only [List.mem_cons, List.mem_singleton, List.not_mem_nil, or_false] at hl
          rcases hl with hl | hl
          · exact Or.inr (Or.inl hl)
          · exact Or.inr (Or.inr (Or.inr ⟨_, by simp, Or.inr (Or.inr hl)⟩))
        | false =>
          rw [remove_done decode run key r req p hdec hkey hrem]
          refine ⟨_, _, rfl, rfl, ?_⟩
          intro line hl
          refine ⟨req, rfl, hkey, ?_⟩
          simp only [List.mem_singleton] at hl
          exact Or.inr (Or.inl hl)
      · rw [remove_wrong_key decode run key r req p hdec hkey]
        exact ⟨[], [], by simp, by simp, by simp⟩

theorem main_key_set (env : String → Option String)
    (hset : Getenv env "KANASA_SERVER_KEY" ≠ "") :
    main env =
      { localServerKey := Getenv env "KANASA_SERVER_KEY",
        routes := [("/health", Handler.health), ("/peer/add", Handler.peerAdd),
          ("/peer/remove", Handler.peerRemove)],
        log := ["Kanasa WG service for server_key=" ++ Getenv env "KANASA_SERVER_KEY" ++
          " listening on 127.0.0.1:9000"],
        exited := none } := by
  simp [main, hset]

theorem main_key_unset (env : String → Option String)
    (hset : Getenv env "KANASA_SERVER_KEY" = "") :
    main env =
      { localServerKey := "", routes := [], log := ["KANASA_SERVER_KEY is not set"],
        exited := some 1 } := by
  simp [main, hset]


/-! ## The claims -/

/-- C1: a decoded request whose server key differs from the configured secret gets status
403 with the refusal message from both `peerAddHandler` and `peerRemoveHandler`, and the
process side is left exactly as it was: no command is run (no `wg set`, no `wg show`),
the host is untouched and nothing is logged, whatever the public key and the address. -/
theorem wrong_key_is_forbidden {σ : Type} (decode : String → Option PeerAddRequest)
    (run : Exec σ) (key : String) (r : Request) (req : PeerAddRequest) (p : Proc σ)
    (hdec : decode r.body = some req) (hkey : req.ServerKey ≠ key) :
    ((peerAddHandler decode run key r p ResponseWriter.fresh).2.status = 403 ∧
      (peerAddHandler decode run key r p ResponseWriter.fresh).2.body =
        "execution not allowed for this server\n" ∧
      (peerAddHandler decode run key r p ResponseWriter.fresh).1.calls = p.calls ∧
      (peerAddHandler decode run key r p ResponseWriter.fresh).1 = p) ∧
    ((peerRemoveHandler decode run key r p ResponseWriter.fresh).2.status = 403 ∧
      (peerRemoveHandler decode run key r p ResponseWriter.fresh).2.body =
        "execution not allowed for this server\n" ∧
      (peerRemoveHandler decode run key r p ResponseWriter.fresh).1.calls = p.calls ∧
      (peerRemoveHandler decode run key r p ResponseWriter.fresh).1 = p) := by
  rw [add_wrong_key decode run key r req p hdec hkey,
    remove_wrong_key decode run key r req p hdec hkey, httpError_fresh]
  simp

/-- C1 on the scenario of the specification: the request with server key `S` sent to a
server whose secret is `T` is refused by the add handler and runs no command. -/
theorem wrong_key_is_forbidden_witness :
    (peerAddHandler (decodeAs scenarioAdd) strictWg "T" ⟨"/peer/add", ""⟩ (Proc.start [])
        ResponseWriter.fresh).2.status = 403 ∧
      (peerAddHandler (decodeAs scenarioAdd) strictWg "T" ⟨"/peer/add", ""⟩ (Proc.start [])
        ResponseWriter.fresh).1.calls = [] :=
  have h := wrong_key_is_forbidden (decodeAs scenarioAdd) strictWg "T" ⟨"/peer/add", ""⟩
    scenarioAdd (Proc.start []) rfl (by decide)
  ⟨h.1.1, h.1.2.2.1⟩

/-- C2: for a decoded add request with the right server key, when the set call and the
list call after it both succeed, the reply is the JSON success reply (status 200, body
`{"success":true,"message":"peer added successfully"}`) if the listing contains the
public key, and status 500 with `peer verification failed` if it does not. -/
theorem add_outcome_follows_listing {σ : Type} (decode : String → Option PeerAddRequest)
    (run : Exec σ) (key : String) (r : Request) (req : PeerAddRequest) (p : Proc σ)
    (hdec : decode r.body = some req) (hkey : req.ServerKey = key)
    (hset : (run (setArgv req) p.host).1.failed = false)
    (hlist : (run showArgv (run (setArgv req) p.host).2).1.failed = false) :
    (Contains (run showArgv (run (setArgv req) p.host).2).1.out req.PublicKey = true →
      (peerAddHandler decode run key r p ResponseWriter.fresh).2.status = 200 ∧
      (peerAddHandler decode run key r p ResponseWriter.fresh).2.body =
        encodeApiResponse { Success := true, Message := "peer added successfully" } ∧
      (peerAddHandler decode run key r p ResponseWriter.fresh).2.body =
        "\x7b\"success\":true,\"message\":\"peer added successfully\"\x7d\n") ∧
    (Contains (run showArgv (run (setArgv req) p.host).2).1.out req.PublicKey = false →
      (peerAddHandler decode run key r p ResponseWriter.fresh).2.status = 500 ∧
      (peerAddHandler decode run key r p ResponseWriter.fresh).2.body =
        "peer verification failed\n") := by
  constructor
  · intro hfound
    rw [add_confirmed decode run key r req p hdec hkey hset hlist hfound, jsonReply_fresh]
    exact ⟨rfl, rfl, encode_added⟩
  · intro hmiss
    rw [add_key_missing decode run key r req p hdec hkey hset hlist hmiss, httpError_fresh]
    exact ⟨rfl, rfl⟩

/-- C2 on the scenario of the specification: secret `S`, a host on which `wg set` works
and whose listing then shows `PUBKEY1`; the body is the success record. -/
theorem add_outcome_follows_listing_witness :
    (peerAddHandler (decodeAs scenarioAdd) strictWg "S" ⟨"/peer/add", ""⟩ (Proc.start [])
        ResponseWriter.fresh).2.status = 200 ∧
      (peerAddHandler (decodeAs scenarioAdd) strictWg "S" ⟨"/peer/add", ""⟩ (Proc.start [])
        ResponseWriter.fresh).2.body =
        "\x7b\"success\":true,\"message\":\"peer added successfully\"\x7d\n" :=
  have h := (add_outcome_follows_listing (decodeAs scenarioAdd) strictWg "S"
    ⟨"/peer/add", ""⟩ scenarioAdd (Proc.start []) rfl rfl (by decide) (by decide)).1
    (by decide)
  ⟨h.1, h.2.2⟩


/-- C3: whatever the body, the secret and the behaviour of the external command, if the
reply of `peerAddHandler` reports success then the body decoded to a request whose server
key is the secret, the handler ran exactly the set call and then the list call on the host
that the set call left, both succeeded, and the listing contains the request's public
key. -/
theorem add_success_is_confirmed {σ : Type} (decode : String → Option PeerAddRequest)
    (run : Exec σ) (key : String) (r : Request) (p : Proc σ)
    (hok : ReportsSuccess (peerAddHandler decode run key r p ResponseWriter.fresh).2) :
    ∃ req, decode r.body = some req ∧ req.ServerKey = key ∧
      (run (setArgv req) p.host).1.failed = false ∧
      (run showArgv (run (setArgv req) p.host).2).1.failed = false ∧
      Contains (run showArgv (run (setArgv req) p.host).2).1.out req.PublicKey = true ∧
      (peerAddHandler decode run key r p ResponseWriter.fresh).1.calls =
        p.calls ++ [(setArgv req, (run (setArgv req) p.host).1),
          (showArgv, (run showArgv (run (setArgv req) p.host).2).1)] := by
  cases hdec : decode r.body with
  | none =>
    rw [add_undecoded decode run key r p hdec] at hok
    exact absurd hok (httpError_not_success _ _ (by decide) (by decide))
  | some req =>
    by_cases hkey : req.ServerKey = key
    · cases hset : (run (setArgv req) p.host).1.failed with
      | true =>
        rw [add_set_failed decode run key r req p hdec hkey hset] at hok
        exact absurd hok (httpError_not_success _ _ (by decide) (by decide))
      | false =>
        cases hlist : (run showArgv (run (setArgv req) p.host).2).1.failed with
        | true =>
          rw [add_list_failed decode run key r req p hdec hkey hset hlist] at hok
          exact absurd hok (httpError_not_success _ _ (by decide) (by decide))
        | false =>
          cases hc : Contains (run showArgv (run (setArgv req) p.host).2).1.out req.PublicKey with
          | false =>
            rw [add_key_missing decode run key r req p hdec hkey hset hlist hc] at hok
            exact absurd hok (httpError_not_success _ _ (by decide) (by decide))
          | true =>
            refine ⟨req, rfl, hkey, hset, hlist, hc, ?_⟩
            rw [add_confirmed decode run key r req p hdec hkey hset hlist hc]
    · rw [add_wrong_key decode run key r req p hdec hkey] at hok
      exact absurd hok (httpError_not_success _ _ (by decide) (by decide))

/-- C3 on a concrete run: the add scenario on a host where the peer is listed after the
set call reports success, and the two calls are the set call followed by the list call. -/
theorem add_success_is_confirmed_witness :
    ∃ req, decodeAs scenarioAdd "" = some req ∧ req.ServerKey = "S" ∧
      (strictWg (setArgv req) []).1.failed = false ∧
      (strictWg showArgv (strictWg (setArgv req) []).2).1.failed = false ∧
      Contains (strictWg showArgv (strictWg (setArgv req) []).2).1.out req.PublicKey = true ∧
      (peerAddHandler (decodeAs scenarioAdd) strictWg "S" ⟨"/peer/add", ""⟩ (Proc.start [])
        ResponseWriter.fresh).1.calls =
        [] ++ [(setArgv req, (strictWg (setArgv req) []).1),
          (showArgv, (strictWg showArgv (strictWg (setArgv req) []).2).1)] :=
  add_success_is_confirmed (decodeAs scenarioAdd) strictWg "S" ⟨"/peer/add", ""⟩
    (Proc.start []) (Or.inl (by decide))

/-- C4: an authorized remove request runs exactly one command, `wg set wg0 peer K remove`,
where `K` is the request's public key with its leading and trailing white space cut off:
the key is white space, then `K`, then white space; `K` neither begins nor ends with white
space; `K` is the key itself exactly when the key has no white space at either end; and
the key `"  PUBKEY1  "` is passed as `"PUBKEY1"`. -/
theorem remove_passes_trimmed_key {σ : Type} (decode : String → Option PeerAddRequest)
    (run : Exec σ) (key : String) (r : Request) (req : PeerAddRequest) (p : Proc σ)
    (hdec : decode r.body = some req) (hkey : req.ServerKey = key) :
    (∃ res, (peerRemoveHandler decode run key r p ResponseWriter.fresh).1.calls =
      p.calls ++ [(["wg", "set", "wg0", "peer", TrimSpace req.PublicKey, "remove"], res)]) ∧
    (∃ before after, req.PublicKey.data = before ++ (TrimSpace req.PublicKey).data ++ after ∧
      (∀ c ∈ before, isSpace c = true) ∧ (∀ c ∈ after, isSpace c = true)) ∧
    (∀ c, (TrimSpace req.PublicKey).data.head? = some c → isSpace c = false) ∧
    (∀ c, (TrimSpace req.PublicKey).data.getLast? = some c → isSpace c = false) ∧
    (TrimSpace req.PublicKey = req.PublicKey ↔
      (∀ c, req.PublicKey.data.head? = some c → isSpace c = false) ∧
      (∀ c, req.PublicKey.data.getLast? = some c → isSpace c = false)) ∧
    TrimSpace "  PUBKEY1  " = "PUBKEY1" ∧ TrimSpace "PUBKEY1" = "PUBKEY1" := by
  refine ⟨?_, ?_, trim_head _, trim_last _, TrimSpace_fixed_iff _, by decide, by decide⟩
  · cases hrem : (run (removeArgv req) p.host).1.failed with
    | true =>
      rw [remove_failed decode run key r req p hdec hkey hrem]
      exact ⟨_, rfl⟩
    | false =>
      rw [remove_done decode run key r req p hdec hkey hrem]
      exact ⟨_, rfl⟩
  · refine ⟨_, _, trim_split req.PublicKey.data, ?_, ?_⟩
    · intro c hc
      exact List.mem_takeWhile_imp hc
    · intro c hc
      unfold List.rtakeWhile at hc
      exact List.mem_takeWhile_imp (List.mem_reverse.mp hc)

/-- C4 on the scenario of the specification: the remove call made for the key
`"  PUBKEY1  "` carries `"PUBKEY1"`. -/
theorem remove_passes_trimmed_key_witness :
    (peerRemoveHandler (decodeAs scenarioRemove) strictWg "S" ⟨"/peer/remove", ""⟩
      (Proc.start [("PUBKEY1", "10.0.0.5/32")]) ResponseWriter.fresh).1.calls.map Prod.fst =
      [["wg", "set", "wg0", "peer", "PUBKEY1", "remove"]] := by
  obtain ⟨res, h⟩ := (remove_passes_trimmed_key (decodeAs scenarioRemove) strictWg "S"
    ⟨"/peer/remove", ""⟩ scenarioRemove (Proc.start [("PUBKEY1", "10.0.0.5/32")]) rfl rfl).1
  rw [h]
  rfl

/-- C10: a body that fails to decode gets status 400 with `invalid json` from both
`peerAddHandler` and `peerRemoveHandler`, which is not the 403 of a refused key; the
process side is untouched (no command, no log line); and the whole result is the same for
any two configured secrets and any two behaviours of the external command, so neither the
key comparison nor the command has a part in it. -/
theorem undecodable_body_is_bad_request {σ : Type} (decode : String → Option PeerAddRequest)
    (run run2 : Exec σ) (key key2 : String) (r : Request) (p : Proc σ)
    (hdec : decode r.body = none) :
    ((peerAddHandler decode run key r p ResponseWriter.fresh).2.status = 400 ∧
      (peerAddHandler decode run key r p ResponseWriter.fresh).2.body = "invalid json\n" ∧
      (peerAddHandler decode run key r p ResponseWriter.fresh).2.status ≠ 403 ∧
      (peerAddHandler decode run key r p ResponseWriter.fresh).1 = p ∧
      peerAddHandler decode run key r p ResponseWriter.fresh =
        peerAddHandler decode run2 key2 r p ResponseWriter.fresh) ∧
    ((peerRemoveHandler decode run key r p ResponseWriter.fresh).2.status = 400 ∧
      (peerRemoveHandler decode run key r p ResponseWriter.fresh).2.body = "invalid json\n" ∧
      (peerRemoveHandler decode run key r p ResponseWriter.fresh).2.status ≠ 403 ∧
      (peerRemoveHandler decode run key r p ResponseWriter.fresh).1 = p ∧
      peerRemoveHandler decode run key r p ResponseWriter.fresh =
        peerRemoveHandler decode run2 key2 r p ResponseWriter.fresh) := by
  rw [add_undecoded decode run key r p hdec, add_undecoded decode run2 key2 r p hdec,
    remove_undecoded decode run key r p hdec, remove_undecoded decode run2 key2 r p hdec,
    httpError_fresh]
  exact ⟨⟨rfl, rfl, by simp, rfl, rfl⟩, ⟨rfl, rfl, by simp, rfl, rfl⟩⟩

/-- C10 on a concrete run: a body that no decoder accepts, on a server whose secret is
`S`, gets status 400 from the add handler and runs no command. -/
theorem undecodable_body_is_bad_request_witness :
    (peerAddHandler decodeFails strictWg "S" ⟨"/peer/add", "not json"⟩ (Proc.start [])
        ResponseWriter.fresh).2.status = 400 ∧
      (peerAddHandler decodeFails strictWg "S" ⟨"/peer/add", "not json"⟩ (Proc.start [])
        ResponseWriter.fresh).1.calls = [] :=
  have h := undecodable_body_is_bad_request decodeFails strictWg
    (fun _ t => ({ out := "", failed := true }, t)) "S" "T"
    ⟨"/peer/add", "not json"⟩ (Proc.start []) rfl
  ⟨h.1.1, congrArg Proc.calls h.1.2.2.2.1⟩


/-- C5, as stated, fails: on a host whose peer table is empty, so that the listing does
not contain `PUBKEY1`, and whose remove call reports an error for an absent peer, the
authorized remove request is answered with status 500 and `wg remove failed`, and the
reply does not report success. -/
theorem remove_absent_peer_reports_failure :
    Contains (strictWg showArgv []).1.out "PUBKEY1" = false ∧
    (strictWg (removeArgv scenarioRemove) []).1.failed = true ∧
    (peerRemoveHandler (decodeAs scenarioRemove) strictWg "S" ⟨"/peer/remove", ""⟩
      (Proc.start []) ResponseWriter.fresh).2.status = 500 ∧
    (peerRemoveHandler (decodeAs scenarioRemove) strictWg "S" ⟨"/peer/remove", ""⟩
      (Proc.start []) ResponseWriter.fresh).2.body = "wg remove failed\n" ∧
    ¬ ReportsSuccess (peerRemoveHandler (decodeAs scenarioRemove) strictWg "S"
      ⟨"/peer/remove", ""⟩ (Proc.start []) ResponseWriter.fresh).2 := by
  refine ⟨by decide, by decide, by decide, by decide, ?_⟩
  rw [remove_failed (decodeAs scenarioRemove) strictWg "S" ⟨"/peer/remove", ""⟩
    scenarioRemove (Proc.start []) rfl rfl (by decide)]
  exact httpError_not_success _ _ (by decide) (by decide)

/-- C5, amended: an authorized remove request runs the remove call and nothing else (the
peer table is never read), and its outcome is that of the remove call: status 200 with
`peer removed successfully` when the call reports no error, status 500 with
`wg remove failed` when it reports one; the reply reports success exactly in the first
case. -/
theorem remove_outcome_follows_remove_call {σ : Type}
    (decode : String → Option PeerAddRequest) (run : Exec σ) (key : String) (r : Request)
    (req : PeerAddRequest) (p : Proc σ)
    (hdec : decode r.body = some req) (hkey : req.ServerKey = key) :
    (peerRemoveHandler decode run key r p ResponseWriter.fresh).1.calls =
      p.calls ++ [(removeArgv req, (run (removeArgv req) p.host).1)] ∧
    (peerRemoveHandler decode run key r p ResponseWriter.fresh).1.host =
      (run (removeArgv req) p.host).2 ∧
    (peerRemoveHandler decode run key r p ResponseWriter.fresh).2.status =
      (if (run (removeArgv req) p.host).1.failed then 500 else 200) ∧
    (peerRemoveHandler decode run key r p ResponseWriter.fresh).2.body =
      (if (run (removeArgv req) p.host).1.failed then "wg remove failed\n"
        else "\x7b\"success\":true,\"message\":\"peer removed successfully\"\x7d\n") ∧
    (ReportsSuccess (peerRemoveHandler decode run key r p ResponseWriter.fresh).2 ↔
      (run (removeArgv req) p.host).1.failed = false) := by
  cases hrem : (run (removeArgv req) p.host).1.failed with
  | true =>
    rw [remove_failed decode run key r req p hdec hkey hrem]
    refine ⟨rfl, rfl, ?_, ?_, ?_⟩
    · rw [httpError_fresh]; rfl
    · rw [httpError_fresh]; rfl
    · simp only [Bool.true_eq_false, iff_false]
      exact httpError_not_success _ _ (by decide) (by decide)
  | false =>
    rw [remove_done decode run key r req p hdec hkey hrem, jsonReply_fresh]
    refine ⟨rfl, rfl, rfl, encode_removed, ?_⟩
    simp only [iff_true]
    exact Or.inl rfl

/-- C5, amended, on two concrete runs of the remove scenario: with the peer in the table
the reply is status 200, with an empty table (where the stand-in command reports an
error) it is status 500. -/
theorem remove_outcome_follows_remove_call_witness :
    (peerRemoveHandler (decodeAs scenarioRemove) strictWg "S" ⟨"/peer/remove", ""⟩
      (Proc.start [("PUBKEY1", "10.0.0.5/32")]) ResponseWriter.fresh).2.status = 200 ∧
    (peerRemoveHandler (decodeAs scenarioRemove) strictWg "S" ⟨"/peer/remove", ""⟩
      (Proc.start [("PUBKEY1", "10.0.0.5/32")]) ResponseWriter.fresh).1.host = [] :=
  have h := remove_outcome_follows_remove_call (decodeAs scenarioRemove) strictWg "S"
    ⟨"/peer/remove", ""⟩ scenarioRemove (Proc.start [("PUBKEY1", "10.0.0.5/32")]) rfl rfl
  ⟨h.2.2.1, h.2.1⟩

/-- C6: take the same authorized request to the same handler in two runs, with any two
behaviours of the external command that make it fail at the same step (set call, list
call, key missing from the listing, remove call).  The two replies are equal in status,
headers and body; the status is 500; and the body is the fixed message of the step
followed by a newline, in which no output of the command appears. -/
theorem failure_reply_is_fixed {σ₁ σ₂ : Type} (h : Handler)
    (decode : String → Option PeerAddRequest) (run₁ : Exec σ₁) (run₂ : Exec σ₂)
    (key : String) (r : Request) (req : PeerAddRequest) (p₁ : Proc σ₁) (p₂ : Proc σ₂)
    (step : Step) (hdec : decode r.body = some req) (hkey : req.ServerKey = key)
    (h₁ : failureStep h run₁ req p₁.host = some step)
    (h₂ : failureStep h run₂ req p₂.host = some step) :
    (dispatch h decode run₁ key r p₁ ResponseWriter.fresh).2 =
      (dispatch h decode run₂ key r p₂ ResponseWriter.fresh).2 ∧
    (dispatch h decode run₁ key r p₁ ResponseWriter.fresh).2.status = 500 ∧
    (dispatch h decode run₁ key r p₁ ResponseWriter.fresh).2.body =
      categoryMessage step ++ "\n" := by
  rw [failure_reply h decode run₁ key r req p₁ step hdec hkey h₁,
    failure_reply h decode run₂ key r req p₂ step hdec hkey h₂, httpError_fresh]
  exact ⟨rfl, rfl, rfl⟩

/-- C6 on two concrete runs of the add scenario whose set call fails with different
diagnostic text, one on a scripted command and one on an empty script: the replies are
the same, with status 500 and body `wg set failed`. -/
theorem failure_reply_is_fixed_witness :
    (peerAddHandler (decodeAs scenarioAdd) scripted "S" ⟨"/peer/add", ""⟩
      (Proc.start [{ out := "RTNETLINK answers: Operation not permitted", failed := true }])
      ResponseWriter.fresh).2 =
    (peerAddHandler (decodeAs scenarioAdd) scripted "S" ⟨"/peer/add", ""⟩
      (Proc.start [{ out := "Unable to access interface: No such device", failed := true }])
      ResponseWriter.fresh).2 ∧
    (peerAddHandler (decodeAs scenarioAdd) scripted "S" ⟨"/peer/add", ""⟩
      (Proc.start [{ out := "RTNETLINK answers: Operation not permitted", failed := true }])
      ResponseWriter.fresh).2.body = "wg set failed\n" :=
  have h := failure_reply_is_fixed Handler.peerAdd (decodeAs scenarioAdd) scripted scripted
    "S" ⟨"/peer/add", ""⟩ scenarioAdd
    (Proc.start [{ out := "RTNETLINK answers: Operation not permitted", failed := true }])
    (Proc.start [{ out := "Unable to access interface: No such device", failed := true }])
    Step.set rfl rfl (by decide) (by decide)
  ⟨h.1, h.2.2⟩

/-- C7, as stated, fails: started with the secret `topsecret`, `main` logs a line that
contains the complete secret. -/
theorem main_logs_the_secret :
    (main (envWithKey "topsecret")).localServerKey = "topsecret" ∧
    ∃ line ∈ (main (envWithKey "topsecret")).log, Contains line "topsecret" = true := by
  decide

/-- C7, amended: when the key is set, the one line that `main` logs at start-up is
`Kanasa WG service for server_key=<secret> listening on 127.0.0.1:9000`, which contains
the complete secret.  The handlers never pass the secret to the logger: a request adds
log lines only if it decoded and its server key is the secret, and each such line is fixed
text around the request's public key and address or around the output of a command that
the request ran. -/
theorem secret_is_logged_by_main_only {σ : Type} (env : String → Option String)
    (h : Handler) (decode : String → Option PeerAddRequest) (run : Exec σ) (r : Request)
    (p : Proc σ) (hset : Getenv env "KANASA_SERVER_KEY" ≠ "") :
    (main env).localServerKey = Getenv env "KANASA_SERVER_KEY" ∧
    (main env).log = ["Kanasa WG service for server_key=" ++ (main env).localServerKey ++
      " listening on 127.0.0.1:9000"] ∧
    (∀ line ∈ (main env).log, Contains line (main env).localServerKey = true) ∧
    ∃ added newCalls,
      (dispatch h decode run (main env).localServerKey r p ResponseWriter.fresh).1.log =
        p.log ++ added ∧
      (dispatch h decode run (main env).localServerKey r p ResponseWriter.fresh).1.calls =
        p.calls ++ newCalls ∧
      ∀ line ∈ added, ∃ req, decode r.body = some req ∧
        req.ServerKey = (main env).localServerKey ∧
        IsHandlerLine req (newCalls.map Prod.snd) line := by
  refine ⟨?_, ?_, ?_, handler_log_lines h decode run _ r p⟩
  · rw [main_key_set env hset]
  · rw [main_key_set env hset]
  · rw [main_key_set env hset]
    intro line hl
    simp only [List.mem_singleton] at hl
    subst hl
    exact Contains_append _ _ _

/-- C7, amended, on a concrete start: with the secret `topsecret` the start-up line is
the one that names it. -/
theorem secret_is_logged_by_main_only_witness :
    (main (envWithKey "topsecret")).log =
      ["Kanasa WG service for server_key=topsecret listening on 127.0.0.1:9000"] := by
  have h := (secret_is_logged_by_main_only (envWithKey "topsecret") Handler.peerAdd
    (decodeAs scenarioAdd) strictWg ⟨"/peer/add", ""⟩ (Proc.start []) (by decide)).2.1
  rw [h]
  decide

/-- C8, as stated, fails: the Forbidden reply to the add scenario on a server whose secret
is `T` has status 403 and a body that is not an encoded `ApiResponse`: it is the bare
text `execution not allowed for this server` with a newline. -/
theorem forbidden_reply_is_not_an_api_response :
    (peerAddHandler (decodeAs scenarioAdd) strictWg "T" ⟨"/peer/add", ""⟩ (Proc.start [])
      ResponseWriter.fresh).2.status = 403 ∧
    (peerAddHandler (decodeAs scenarioAdd) strictWg "T" ⟨"/peer/add", ""⟩ (Proc.start [])
      ResponseWriter.fresh).2.body = "execution not allowed for this server\n" ∧
    ¬ IsApiResponseBody (peerAddHandler (decodeAs scenarioAdd) strictWg "T"
      ⟨"/peer/add", ""⟩ (Proc.start []) ResponseWriter.fresh).2.body :=
  ⟨by decide, by decide, not_apiResponseBody _ (by decide)⟩

/-- C8, amended: the reply of `peerAddHandler` and of `peerRemoveHandler` is always one of
two kinds.  A success is an encoded `ApiResponse` with `success` true, sent with status
200 and content type `application/json`.  Every other outcome is written by `http.Error`:
status 400, 403 or 500, content type `text/plain`, and as body one of the six fixed
messages followed by a newline, which is not an encoded `ApiResponse`.  No reply is an
`ApiResponse` with `success` false. -/
theorem reply_is_json_success_or_plain_error {σ : Type}
    (decode : String → Option PeerAddRequest) (run : Exec σ) (key : String) (r : Request)
    (p : Proc σ) :
    ((IsJsonSuccess (peerAddHandler decode run key r p ResponseWriter.fresh).2 ∨
        (IsPlainError (peerAddHandler decode run key r p ResponseWriter.fresh).2 ∧
          ¬ IsApiResponseBody (peerAddHandler decode run key r p ResponseWriter.fresh).2.body)) ∧
      ∀ resp, (peerAddHandler decode run key r p ResponseWriter.fresh).2.body =
        encodeApiResponse resp → resp.Success = true) ∧
    ((IsJsonSuccess (peerRemoveHandler decode run key r p ResponseWriter.fresh).2 ∨
        (IsPlainError (peerRemoveHandler decode run key r p ResponseWriter.fresh).2 ∧
          ¬ IsApiResponseBody
            (peerRemoveHandler decode run key r p ResponseWriter.fresh).2.body)) ∧
      ∀ resp, (peerRemoveHandler decode run key r p ResponseWriter.fresh).2.body =
        encodeApiResponse resp → resp.Success = true) := by
  constructor
  · rcases add_reply_shape decode run key r p with hj | hp
    · exact ⟨Or.inl hj, fun resp hr => jsonSuccess_flag _ hj resp hr⟩
    · exact ⟨Or.inr ⟨hp, plainError_not_apiResponse _ hp⟩,
        fun resp hr => absurd ⟨resp, hr⟩ (plainError_not_apiResponse _ hp)⟩
  · rcases remove_reply_shape decode run key r p with hj | hp
    · exact ⟨Or.inl hj, fun resp hr => jsonSuccess_flag _ hj resp hr⟩
    · exact ⟨Or.inr ⟨hp, plainError_not_apiResponse _ hp⟩,
        fun resp hr => absurd ⟨resp, hr⟩ (plainError_not_apiResponse _ hp)⟩

/-- C8, amended, on the two scenarios: the add request on a server whose secret is `S`
gets the JSON success reply, and on a server whose secret is `T` the plain-text error
reply. -/
theorem reply_is_json_success_or_plain_error_witness :
    IsJsonSuccess (peerAddHandler (decodeAs scenarioAdd) strictWg "S" ⟨"/peer/add", ""⟩
      (Proc.start []) ResponseWriter.fresh).2 ∧
    IsPlainError (peerAddHandler (decodeAs scenarioAdd) strictWg "T" ⟨"/peer/add", ""⟩
      (Proc.start []) ResponseWriter.fresh).2 := by
  constructor
  · rcases (reply_is_json_success_or_plain_error (decodeAs scenarioAdd) strictWg "S"
      ⟨"/peer/add", ""⟩ (Proc.start [])).1.1 with h | h
    · exact h
    · exact absurd h.1.1 (by decide)
  · rcases (reply_is_json_success_or_plain_error (decodeAs scenarioAdd) strictWg "T"
      ⟨"/peer/add", ""⟩ (Proc.start [])).1.1 with h | h
    · exact absurd h.1 (by decide)
    · exact h.1

/-- C9: after `main`, either the key read from the environment is empty, the process has
exited with code 1, no route is registered and no request is served; or the key is not
empty, it is the configured secret, and a request to `/peer/add` or `/peer/remove` whose
server key is the empty string is answered with status 403 and the refusal message, with
the process side untouched: no command is run. -/
theorem empty_key_is_never_authorized {σ : Type} (env : String → Option String)
    (decode : String → Option PeerAddRequest) (run : Exec σ) (r : Request)
    (req : PeerAddRequest) (p : Proc σ)
    (hdec : decode r.body = some req) (hempty : req.ServerKey = "")
    (hpath : r.path = "/peer/add" ∨ r.path = "/peer/remove") :
    (Getenv env "KANASA_SERVER_KEY" = "" ∧ (main env).exited = some 1 ∧
      (main env).routes = [] ∧ serve decode run (main env) r p = none) ∨
    (Getenv env "KANASA_SERVER_KEY" ≠ "" ∧
      (main env).localServerKey = Getenv env "KANASA_SERVER_KEY" ∧
      (main env).exited = none ∧
      ∃ a, serve decode run (main env) r p = some a ∧ a.2.status = 403 ∧
        a.2.body = "execution not allowed for this server\n" ∧ a.1.calls = p.calls ∧
        a.1 = p) := by
  by_cases hk : Getenv env "KANASA_SERVER_KEY" = ""
  · left
    rw [main_key_unset env hk]
    exact ⟨hk, rfl, rfl, rfl⟩
  · right
    have hne : req.ServerKey ≠ Getenv env "KANASA_SERVER_KEY" := by
      rw [hempty]
      exact fun h => hk h.symm
    rw [main_key_set env hk]
    refine ⟨hk, rfl, rfl, ?_⟩
    rcases hpath with hp | hp
    · refine ⟨(p, httpError ResponseWriter.fresh "execution not allowed for this server" 403),
        ?_, ?_⟩
      · simp [serve, hp, List.lookup, dispatch, add_wrong_key decode run _ r req p hdec hne]
      · rw [httpError_fresh]
        exact ⟨rfl, rfl, rfl, rfl⟩
    · refine ⟨(p, httpError ResponseWriter.fresh "execution not allowed for this server" 403),
        ?_, ?_⟩
      · simp [serve, hp, List.lookup, dispatch, remove_wrong_key decode run _ r req p hdec hne]
      · rw [httpError_fresh]
        exact ⟨rfl, rfl, rfl, rfl⟩

/-- C9 on a concrete server: started with the secret `S`, the server answers an add
request whose server key is empty with status 403 and runs no command. -/
theorem empty_key_is_never_authorized_witness :
    ∃ a, serve (decodeAs ⟨"", "PUBKEY1", "10.0.0.5/32"⟩) strictWg (main (envWithKey "S"))
        ⟨"/peer/add", ""⟩ (Proc.start []) = some a ∧ a.2.status = 403 ∧ a.1.calls = [] := by
  rcases empty_key_is_never_authorized (envWithKey "S") (decodeAs ⟨"", "PUBKEY1", "10.0.0.5/32"⟩)
    strictWg ⟨"/peer/add", ""⟩ ⟨"", "PUBKEY1", "10.0.0.5/32"⟩ (Proc.start []) rfl rfl
    (Or.inl rfl) with h | h
  · exact absurd h.1 (by decide)
  · obtain ⟨_, _, _, a, ha, hs, _, hc, _⟩ := h
    exact ⟨a, ha, hs, hc⟩

end Kanasa
